import Mathlib

/-!
Verification of the pensieve record decoder (`record_reader.cpp`) and its
Python-facing helpers (`_pensieve.pyx`).

The C++ decoder is shallowly embedded: the byte stream is modelled at the
granularity of the decoder's individual read calls (the struct layouts live in
`records.h`, which is outside the sources at hand, so each fixed-width struct
read is one all-or-nothing item, per the spec's wire-format section), and each
parser function of `RecordReader` is translated directly from the source.
-/

namespace Pensieve

/-- AllocationRecord, translated from the spec's data model (the struct itself
is declared in `records.h`): tid, address, size, allocator tag, py_lineno,
native_frame_id. -/
structure AllocationRecord where
  tid : Nat
  address : Nat
  size : Nat
  allocator : Nat
  py_lineno : Int
  native_frame_id : Nat
deriving DecidableEq

/-- Frame, as in the spec's data model: function name, file name, the line in
the caller at which this frame was entered, and (for allocation frames) the
specialized allocation line. Canonical frames carry the sentinel lineno 0. -/
structure Frame where
  function_name : String
  filename : String
  parent_lineno : Int
  lineno : Int
deriving DecidableEq

/-- FramePush payload: { tid, frame_id }. -/
structure FramePush where
  tid : Nat
  frame_id : Nat
deriving DecidableEq

/-- FramePop payload: { tid, count }. -/
structure FramePop where
  tid : Nat
  count : Nat
deriving DecidableEq

/-- UnresolvedNativeFrame: { instruction pointer, parent index }. -/
structure UnresolvedNativeFrame where
  ip : Nat
  index : Nat
deriving DecidableEq

/-- Segment: { vaddr, memsz }. -/
structure Segment where
  vaddr : Nat
  memsz : Nat
deriving DecidableEq

/-- Header statistics struct. -/
structure Stats where
  n_allocations : Nat
  n_frames : Nat
  start_time : Int
  end_time : Int
deriving DecidableEq

/-- HeaderRecord, as read by `RecordReader::readHeader`. -/
structure HeaderRecord where
  magic : List Nat
  version : Nat
  native_traces : Bool
  stats : Stats
  command_line : String
  pid : Nat
deriving DecidableEq

/-- Node of the stack tree: frame id plus index of the parent node. -/
structure StackTreeNode where
  frame_id : Nat
  parent_index : Nat
deriving DecidableEq

/-- Materialized Allocation delivered by `nextAllocationRecord`. -/
structure Allocation where
  record : AllocationRecord
  frame_index : Nat
  native_segment_generation : Nat
deriving DecidableEq

/-- Modelled from the spec: the wire stream at the granularity of the
decoder's read calls. Each fixed-width struct read in the C++ is a single
all-or-nothing read, each `getline` yields one NUL-terminated string, and the
type tag is one small integer. The exact byte layout lives in `records.h`,
which is not part of the sources under verification. -/
inductive Item where
  | bytes (bs : List Nat)
  | num (v : Nat)
  | int (v : Int)
  | str (s : String)
  | boolv (b : Bool)
  | statsRec (s : Stats)
  | allocRec (a : AllocationRecord)
  | pushRec (p : FramePush)
  | popRec (p : FramePop)
  | nativeRec (u : UnresolvedNativeFrame)
  | segRec (s : Segment)
deriving DecidableEq

/-- Source: a sequence of pending reads plus the `is_open` state. A short
read consumes nothing; `is_open` is controlled externally (closing the source)
and is not changed by reads, mirroring `Source::is_open`. -/
structure Source where
  items : List Item
  is_open : Bool
deriving DecidableEq

def Source.readBytes (s : Source) (n : Nat) : Option (List Nat × Source) :=
  match s.items with
  | Item.bytes bs :: r => if bs.length = n then some (bs, ⟨r, s.is_open⟩) else none
  | _ => none

def Source.readNum (s : Source) : Option (Nat × Source) :=
  match s.items with
  | Item.num v :: r => some (v, ⟨r, s.is_open⟩)
  | _ => none

def Source.readInt (s : Source) : Option (Int × Source) :=
  match s.items with
  | Item.int v :: r => some (v, ⟨r, s.is_open⟩)
  | _ => none

def Source.readStr (s : Source) : Option (String × Source) :=
  match s.items with
  | Item.str v :: r => some (v, ⟨r, s.is_open⟩)
  | _ => none

def Source.readBool (s : Source) : Option (Bool × Source) :=
  match s.items with
  | Item.boolv v :: r => some (v, ⟨r, s.is_open⟩)
  | _ => none

def Source.readStatsRec (s : Source) : Option (Stats × Source) :=
  match s.items with
  | Item.statsRec v :: r => some (v, ⟨r, s.is_open⟩)
  | _ => none

def Source.readAllocRec (s : Source) : Option (AllocationRecord × Source) :=
  match s.items with
  | Item.allocRec v :: r => some (v, ⟨r, s.is_open⟩)
  | _ => none

def Source.readPushRec (s : Source) : Option (FramePush × Source) :=
  match s.items with
  | Item.pushRec v :: r => some (v, ⟨r, s.is_open⟩)
  | _ => none

def Source.readPopRec (s : Source) : Option (FramePop × Source) :=
  match s.items with
  | Item.popRec v :: r => some (v, ⟨r, s.is_open⟩)
  | _ => none

def Source.readNativeRec (s : Source) : Option (UnresolvedNativeFrame × Source) :=
  match s.items with
  | Item.nativeRec v :: r => some (v, ⟨r, s.is_open⟩)
  | _ => none

def Source.readSegRec (s : Source) : Option (Segment × Source) :=
  match s.items with
  | Item.segRec v :: r => some (v, ⟨r, s.is_open⟩)
  | _ => none

/-- Errors thrown by the decoder: `std::ios_base::failure`,
`std::runtime_error`, and `std::out_of_range` (from `map::at`). -/
inductive RError where
  | iosFailure (msg : String)
  | runtimeError (msg : String)
  | outOfRange (what : String)
deriving DecidableEq

/-- Association-list lookup keyed by `Nat`, modelling the decoder's maps. -/
def alookup {β : Type} : List (Nat × β) → Nat → Option β
  | [], _ => none
  | (k', v) :: r, k => if k' = k then some v else alookup r k

/-- Association-list update; inserts at the end when the key is absent
(modelling `operator[]` / assignment into a map). -/
def aset {β : Type} : List (Nat × β) → Nat → β → List (Nat × β)
  | [], k, v => [(k, v)]
  | (k', v') :: r, k, v => if k' = k then (k', v) :: r else (k', v') :: aset r k v

/-- `map::emplace`: inserts only when the key is absent, no error otherwise. -/
def emplaceFrame (m : List (Nat × Frame)) (k : Nat) (f : Frame) : List (Nat × Frame) :=
  if (alookup m k).isSome then m else m ++ [(k, f)]

/-- First index of a frame in a list, used by the allocation-frame interner. -/
def findFrame : List Frame → Frame → Option Nat
  | [], _ => none
  | g :: gs, f => if g = f then some 0 else (findFrame gs f).map (· + 1)

/-- Modelled from the spec: the allocation-frame interner (`FrameCollection`,
declared outside the sources at hand). It is injective and yields FrameIds
disjoint from the base set; the id space is partitioned by a fixed offset. -/
structure AllocationFrames where
  frames : List Frame
deriving DecidableEq

/-- Modelled from the spec: base of the allocation-frame id range, keeping the
interner's ids disjoint from the FrameIds carried by FRAME_INDEX records. -/
def ALLOCATION_FRAME_OFFSET : Nat := 1000000000

/-- Modelled from the spec: `FrameCollection::getIndex` returns the id of the
frame, interning it if unseen, together with whether it was new. -/
def AllocationFrames.getIndex (A : AllocationFrames) (f : Frame) :
    Nat × Bool × AllocationFrames :=
  match findFrame A.frames f with
  | some i => (ALLOCATION_FRAME_OFFSET + i, false, A)
  | none => (ALLOCATION_FRAME_OFFSET + A.frames.length, true, ⟨A.frames ++ [f]⟩)

/-- Modelled from the spec: the append-only stack tree (`FrameTree`, declared
outside the sources at hand). Node 0 is the root sentinel. -/
structure FrameTree where
  nodes : List StackTreeNode
deriving DecidableEq

def FrameTree.root : StackTreeNode := ⟨0, 0⟩

def FrameTree.start : FrameTree := ⟨[FrameTree.root]⟩

/-- Modelled from the spec: `next_node(index)` walks toward the root. -/
def FrameTree.nextNode (t : FrameTree) (i : Nat) : StackTreeNode :=
  t.nodes.getD i FrameTree.root

/-- First child of `p` labelled `f` (index 0, the root, is never a child);
the first-inserted child wins, per the spec's tie-breaking rule. -/
def findChildAux : List StackTreeNode → Nat → Nat → Nat → Option Nat
  | [], _, _, _ => none
  | n :: ns, i, p, f =>
    if i ≠ 0 ∧ n.parent_index = p ∧ n.frame_id = f then some i
    else findChildAux ns (i + 1) p f

/-- Modelled from the spec: the child of node `p` labelled `f`, creating it
if absent. -/
def FrameTree.getNodeIndex (t : FrameTree) (p f : Nat) : Nat × FrameTree :=
  match findChildAux t.nodes 0 p f with
  | some i => (i, t)
  | none => (t.nodes.length, ⟨t.nodes ++ [⟨f, p⟩]⟩)

/-- Modelled from the spec: `get_trace_index(path)` returns the node index
terminating the path, growing the tree as needed; the empty path yields the
root sentinel 0. -/
def FrameTree.getTraceIndex (t : FrameTree) (stack : List Nat) : Nat × FrameTree :=
  stack.foldl (fun acc fid => acc.2.getNodeIndex acc.1 fid) (0, t)

/-- Modelled from the spec: the symbol resolver state used by the decoder —
a generation counter bumped by `clearSegments` plus the loaded objects. The
interval-tree queries are not needed by the decode loop itself. -/
structure SymbolResolver where
  generation : Nat
  objects : List (String × Nat × List Segment)
deriving DecidableEq

def SymbolResolver.clearSegments (r : SymbolResolver) : SymbolResolver :=
  ⟨r.generation + 1, []⟩

def SymbolResolver.addSegments (r : SymbolResolver) (f : String) (a : Nat)
    (s : List Segment) : SymbolResolver :=
  ⟨r.generation, r.objects ++ [(f, a, s)]⟩

def SymbolResolver.currentSegmentGeneration (r : SymbolResolver) : Nat :=
  r.generation

/-- Decoder state, field for field after `RecordReader`. `d_ub` is not a C++
member: it records that the code executed `pop_back` on an empty vector,
which is undefined behaviour in C++ (the guarding `assert` is compiled out
under NDEBUG); the model resolves the pop as a no-op and raises this flag. -/
structure RecordReader where
  d_header : HeaderRecord
  d_stack_traces : List (Nat × List Nat)
  d_frame_map : List (Nat × Frame)
  d_allocation_frames : AllocationFrames
  d_native_frames : List UnresolvedNativeFrame
  d_thread_names : List (Nat × String)
  d_tree : FrameTree
  d_symbol_resolver : SymbolResolver
  d_ub : Bool
deriving DecidableEq

/-- Modelled from the spec: the literal magic bytes (7 ASCII characters plus
NUL; the constant lives in `records.h`). -/
def MAGIC : List Nat := [112, 101, 110, 115, 105, 101, 118, 101]

/-- Modelled from the spec: the current header version (the constant lives in
`records.h`; only its identity matters). -/
def CURRENT_HEADER_VERSION : Nat := 1

/-- `RecordReader::readHeader`, translated from the source: magic check,
hard-equal version check, then native_traces, stats, command_line and pid
reads, each failure throwing `std::ios_base::failure`. The version read's
return value is not checked by the C++; a failed read leaves the
default-initialized value, modelled as 0. -/
def readHeader (src : Source) : Except RError (HeaderRecord × Source) :=
  match src.readBytes MAGIC.length with
  | none => .error (.iosFailure
      "The provided input file does not look like a binary generated by pensieve.")
  | some (m, s1) =>
    if m ≠ MAGIC then
      .error (.iosFailure
        "The provided input file does not look like a binary generated by pensieve.")
    else
      let vres := s1.readNum
      let version := (vres.map Prod.fst).getD 0
      let s2 := (vres.map Prod.snd).getD s1
      if version ≠ CURRENT_HEADER_VERSION then
        .error (.iosFailure
          "The provided input file is incompatible with this version of pensieve.")
      else
        match s2.readBool with
        | none => .error (.iosFailure "Failed to read input file.")
        | some (native_traces, s3) =>
          match s3.readStatsRec with
          | none => .error (.iosFailure "Failed to read input file.")
          | some (stats, s4) =>
            match s4.readStr with
            | none => .error (.iosFailure "Failed to read input file.")
            | some (command_line, s5) =>
              match s5.readNum with
              | none => .error (.iosFailure "Failed to read tPID from input file.")
              | some (pid, s6) =>
                .ok (⟨m, version, native_traces, stats, command_line, pid⟩, s6)

/-- Fresh decoder state holding a given header: empty per-TID stacks, empty
frame map, empty interner, the sentinel-rooted stack tree, generation 0. -/
def initialReader (h : HeaderRecord) : RecordReader :=
  ⟨h, [], [], ⟨[]⟩, [], [], FrameTree.start, ⟨0, []⟩, false⟩

/-- `RecordReader::RecordReader`: the constructor reads the header before any
record-parsing state exists; a header failure propagates and no reader is
built. -/
def RecordReader.construct (src : Source) : Except RError (RecordReader × Source) :=
  (readHeader src).map fun hs => (initialReader hs.1, hs.2)

/-- Modelled from the spec: the record type tag alphabet (numeric values live
in `records.h`; only distinctness matters). -/
def TAG_ALLOCATION : Nat := 1
def TAG_FRAME_PUSH : Nat := 2
def TAG_FRAME_POP : Nat := 3
def TAG_FRAME_INDEX : Nat := 4
def TAG_NATIVE_TRACE_INDEX : Nat := 5
def TAG_MEMORY_MAP_START : Nat := 6
def TAG_SEGMENT_HEADER : Nat := 7
def TAG_SEGMENT : Nat := 8
def TAG_THREAD_RECORD : Nat := 9

/-- Pop `c` entries from the back of the stack, as the loop in
`RecordReader::parseFramePop` does. Popping an empty vector is undefined
behaviour in C++; the model leaves the stack empty and reports it in the
second component. -/
def popN : List Nat → Nat → List Nat × Bool
  | l, 0 => (l, false)
  | [], _ + 1 => ([], true)
  | l@(_ :: _), c + 1 => popN l.dropLast c

/-- `RecordReader::parseFramePush`: read the payload (failure is a short
read), then append the frame id to the TID's stack. -/
def parseFramePush (st : RecordReader) (src : Source) : Option (RecordReader × Source) :=
  match src.readPushRec with
  | none => none
  | some (record, src') =>
    let newStack := ((alookup st.d_stack_traces record.tid).getD []) ++ [record.frame_id]
    some ({ st with d_stack_traces := aset st.d_stack_traces record.tid newStack }, src')

/-- `RecordReader::parseFramePop`: read the payload, then pop `count` entries
from the TID's stack (`operator[]` inserts an empty stack when the TID is
unseen). The C++ `assert(!stack.empty())` is compiled out under NDEBUG; pops
past empty are undefined behaviour, recorded in `d_ub`. -/
def parseFramePop (st : RecordReader) (src : Source) : Option (RecordReader × Source) :=
  match src.readPopRec with
  | none => none
  | some (record, src') =>
    let cur := (alookup st.d_stack_traces record.tid).getD []
    let r := popN cur record.count
    some ({ st with d_stack_traces := aset st.d_stack_traces record.tid r.1,
                    d_ub := st.d_ub || r.2 },
          src')

/-- `RecordReader::parseFrameIndex`: four reads (id, function name, file
name, parent lineno), any short read returning failure; a duplicate id makes
`map::insert` fail and throws `std::runtime_error`. Canonical frames carry
the sentinel lineno 0. -/
def parseFrameIndex (st : RecordReader) (src : Source) :
    Except RError (Option (RecordReader × Source)) :=
  match src.readNum with
  | none => .ok none
  | some (fid, s1) =>
    match s1.readStr with
    | none => .ok none
    | some (function_name, s2) =>
      match s2.readStr with
      | none => .ok none
      | some (filename, s3) =>
        match s3.readInt with
        | none => .ok none
        | some (parent_lineno, s4) =>
          if (alookup st.d_frame_map fid).isSome then
            .error (.runtimeError "Two entries with the same ID found!")
          else
            .ok (some ({ st with d_frame_map :=
                          st.d_frame_map ++ [(fid, ⟨function_name, filename, parent_lineno, 0⟩)] },
                       s4))

/-- `RecordReader::parseNativeFrameIndex`: read the struct, append it. -/
def parseNativeFrameIndex (st : RecordReader) (src : Source) :
    Option (RecordReader × Source) :=
  match src.readNativeRec with
  | none => none
  | some (frame, src') =>
    some ({ st with d_native_frames := st.d_native_frames ++ [frame] }, src')

/-- `RecordReader::parseSegment` iterated `n` times: each iteration reads a
record-type tag (the `assert` on it is compiled out under NDEBUG) and one
segment struct. -/
def readSegments : Nat → Source → Option (List Segment × Source)
  | 0, src => some ([], src)
  | n + 1, src =>
    match src.readNum with
    | none => none
    | some (_, s1) =>
      match s1.readSegRec with
      | none => none
      | some (seg, s2) =>
        (readSegments n s2).map fun rs => (seg :: rs.1, rs.2)

/-- `RecordReader::parseSegmentHeader`: filename, count and base address, then
`count` SEGMENT records, registered with the resolver. The C++ constructs
`std::vector<Segment> segments(num_segments)` and then appends the parsed
segments, so the registered vector starts with `num_segments` zero segments;
the model reproduces that faithfully. -/
def parseSegmentHeader (st : RecordReader) (src : Source) :
    Option (RecordReader × Source) :=
  match src.readStr with
  | none => none
  | some (filename, s1) =>
    match s1.readNum with
    | none => none
    | some (num_segments, s2) =>
      match s2.readNum with
      | none => none
      | some (addr, s3) =>
        (readSegments num_segments s3).map fun rs =>
          let segs : List Segment := List.replicate num_segments ⟨0, 0⟩ ++ rs.1
          let resolver := st.d_symbol_resolver.addSegments filename addr segs
          ({ st with d_symbol_resolver := resolver }, rs.2)

/-- `RecordReader::parseThreadRecord`: tid and name, last wins. -/
def parseThreadRecord (st : RecordReader) (src : Source) :
    Option (RecordReader × Source) :=
  match src.readNum with
  | none => none
  | some (tid, s1) =>
    match s1.readStr with
    | none => none
    | some (name, s2) =>
      some ({ st with d_thread_names := aset st.d_thread_names tid name }, s2)

/-- `RecordReader::parseAllocationRecord`: one struct read. -/
def parseAllocationRecord (src : Source) : Option (AllocationRecord × Source) :=
  src.readAllocRec

/-- The clone built by `correctAllocationFrame`: the base frame with
`lineno` specialized to the allocation line (the `Frame allocation_frame`
construction in the source). -/
def allocationFrameOf (base_frame : Frame) (lineno : Int) : Frame :=
  ⟨base_frame.function_name, base_frame.filename, base_frame.parent_lineno, lineno⟩

/-- `RecordReader::correctAllocationFrame`: on a non-empty stack, clone the
top frame (looked up with `map::at`, which throws when absent) with `lineno`
set to the allocation line, intern the clone, insert it into the frame map
only when new, and replace the top of the stack with the interned id. -/
def correctAllocationFrame (st : RecordReader) (stack : List Nat) (lineno : Int) :
    Except RError (List Nat × RecordReader) :=
  if h : stack = [] then .ok (stack, st)
  else
    match alookup st.d_frame_map (stack.getLast h) with
    | none => .error (.outOfRange "d_frame_map.at")
    | some base_frame =>
      let allocation_frame : Frame := allocationFrameOf base_frame lineno
      let r := st.d_allocation_frames.getIndex allocation_frame
      let fm := if r.2.1 then emplaceFrame st.d_frame_map r.1 allocation_frame
                else st.d_frame_map
      .ok (stack.dropLast ++ [r.1],
           { st with d_frame_map := fm, d_allocation_frames := r.2.2 })

/-- `RecordReader::getAllocationFrameIndex`: an unseen TID yields the root
sentinel 0; otherwise the stack is corrected in place and its stack-tree
index computed. -/
def getAllocationFrameIndex (st : RecordReader) (record : AllocationRecord) :
    Except RError (Nat × RecordReader) :=
  match alookup st.d_stack_traces record.tid with
  | none => .ok (0, st)
  | some stack =>
    match correctAllocationFrame st stack record.py_lineno with
    | .error e => .error e
    | .ok (stack', st1) =>
      let ti := st1.d_tree.getTraceIndex stack'
      .ok (ti.1, { st1 with d_tree := ti.2,
                            d_stack_traces := aset st1.d_stack_traces record.tid stack' })

/-- Result of one `nextAllocationRecord` call: `outcome = some a` models
`return true` with `*allocation = a`; `none` models `return false`. `log`
collects the `LOG(ERROR)` lines emitted during the call. -/
structure NextResult where
  outcome : Option Allocation
  reader : RecordReader
  source : Source
  log : List String
deriving DecidableEq

/-- `LOG(ERROR)` guarded by `d_input->is_open()`. -/
def addLog (src : Source) (log : List String) (msg : String) : List String :=
  if src.is_open then log ++ [msg] else log

/-- The decode loop of `RecordReader::nextAllocationRecord`, translated case
by case from the switch. The fuel argument only bounds the recursion; every
iteration consumes at least the tag item, so `items.length + 1` is always
enough. -/
def nextAllocationLoop : Nat → RecordReader → Source → List String →
    Except RError NextResult
  | 0, st, src, log => .ok ⟨none, st, src, log⟩
  | Nat.succ fuel, st, src, log =>
    match src.readNum with
    | none => .ok ⟨none, st, src, log⟩
    | some (record_type, src1) =>
      if record_type = TAG_ALLOCATION then
        match parseAllocationRecord src1 with
        | none => .ok ⟨none, st, src1, addLog src1 log "Failed to parse allocation record"⟩
        | some (record, src2) =>
          match getAllocationFrameIndex st record with
          | .error e => .error e
          | .ok (f_index, st') =>
            .ok ⟨some ⟨record, f_index, st'.d_symbol_resolver.currentSegmentGeneration⟩,
                 st', src2, log⟩
      else if record_type = TAG_FRAME_PUSH then
        match parseFramePush st src1 with
        | none => .ok ⟨none, st, src1, addLog src1 log "Failed to parse frame push"⟩
        | some (st', src2) => nextAllocationLoop fuel st' src2 log
      else if record_type = TAG_FRAME_POP then
        match parseFramePop st src1 with
        | none => .ok ⟨none, st, src1, addLog src1 log "Failed to parse frame pop"⟩
        | some (st', src2) => nextAllocationLoop fuel st' src2 log
      else if record_type = TAG_FRAME_INDEX then
        match parseFrameIndex st src1 with
        | .error e => .error e
        | .ok none => .ok ⟨none, st, src1, addLog src1 log "Failed to parse frame index"⟩
        | .ok (some (st', src2)) => nextAllocationLoop fuel st' src2 log
      else if record_type = TAG_NATIVE_TRACE_INDEX then
        match parseNativeFrameIndex st src1 with
        | none => .ok ⟨none, st, src1, addLog src1 log "Failed to parse native frame index"⟩
        | some (st', src2) => nextAllocationLoop fuel st' src2 log
      else if record_type = TAG_MEMORY_MAP_START then
        nextAllocationLoop fuel
          { st with d_symbol_resolver := st.d_symbol_resolver.clearSegments } src1 log
      else if record_type = TAG_SEGMENT_HEADER then
        match parseSegmentHeader st src1 with
        | none => .ok ⟨none, st, src1, addLog src1 log "Failed to parse segment header"⟩
        | some (st', src2) => nextAllocationLoop fuel st' src2 log
      else if record_type = TAG_THREAD_RECORD then
        match parseThreadRecord st src1 with
        | none => .ok ⟨none, st, src1, addLog src1 log "Failed to parse thread record"⟩
        | some (st', src2) => nextAllocationLoop fuel st' src2 log
      else
        .ok ⟨none, st, src1, addLog src1 log "Invalid record type"⟩

/-- `RecordReader::nextAllocationRecord`. -/
def nextAllocationRecord (st : RecordReader) (src : Source) : Except RError NextResult :=
  nextAllocationLoop (src.items.length + 1) st src []

/-- The allocation delivered to the caller, if the call returned true. -/
def deliveredAllocation : Except RError NextResult → Option Allocation
  | .ok r => r.outcome
  | .error _ => none

/-- Whether the call surfaced a typed failure (a thrown exception). -/
def isFormatError : Except RError NextResult → Bool
  | .error _ => true
  | .ok _ => false

/-- The error log produced by the call. -/
def resultLog : Except RError NextResult → List String
  | .ok r => r.log
  | .error _ => []

/-- The decoder state after the call (the given default on a throw). -/
def resultReader (d : RecordReader) : Except RError NextResult → RecordReader
  | .ok r => r.reader
  | .error _ => d

/-! Interpreter stack-trace query (`RecordReader::Py_GetStackFrame`). -/

/-- A frame as rendered to the analytical consumer: (function_name, filename,
lineno). -/
structure EmittedFrame where
  function_name : String
  filename : String
  lineno : Int
deriving DecidableEq

/-- Modelled from the spec: `Frame::toPythonObject(cache, lineno)` (defined in
`records.cpp`, outside the sources at hand) renders the frame with the lineno
passed by the walk. -/
def Frame.toEmitted (f : Frame) (lineno : Int) : EmittedFrame :=
  ⟨f.function_name, f.filename, lineno⟩

/-- The walk loop of `RecordReader::Py_GetStackFrame`: while the current
index is non-root and fewer than `max_stacks` frames were emitted, emit the
current node's frame with the carried lineno (initially the sentinel -1),
then move to the parent carrying this frame's `parent_lineno`. A missing
frame id makes `map::at` throw. -/
def pyGetStackFrameGo (st : RecordReader) : Nat → Nat → Int →
    Except RError (List EmittedFrame)
  | 0, _, _ => .ok []
  | _ + 1, 0, _ => .ok []
  | r + 1, Nat.succ i, current_lineno =>
    let node := st.d_tree.nextNode (i + 1)
    match alookup st.d_frame_map node.frame_id with
    | none => .error (.outOfRange "d_frame_map.at")
    | some frame =>
      (pyGetStackFrameGo st r node.parent_index frame.parent_lineno).map
        (fun rest => frame.toEmitted current_lineno :: rest)

/-- `RecordReader::Py_GetStackFrame(index, max_stacks)`. -/
def Py_GetStackFrame (st : RecordReader) (index : Nat) (max_stacks : Nat) :
    Except RError (List EmittedFrame) :=
  pyGetStackFrameGo st max_stacks index (-1)

/-- The walk of `Py_GetStackFrame` stripped of lineno bookkeeping: the
sequence of frames met on the way from `index` toward the root, at most
`max_stacks` of them. Used to state what the walk reports. -/
def walkFrames (st : RecordReader) : Nat → Nat → Except RError (List Frame)
  | 0, _ => .ok []
  | _ + 1, 0 => .ok []
  | r + 1, Nat.succ i =>
    let node := st.d_tree.nextNode (i + 1)
    match alookup st.d_frame_map node.frame_id with
    | none => .error (.outOfRange "d_frame_map.at")
    | some frame =>
      (walkFrames st r node.parent_index).map (fun rest => frame :: rest)

/-- Length of a successfully returned trace (0 on a throw). -/
def traceLen : Except RError (List EmittedFrame) → Nat
  | .ok l => l.length
  | .error _ => 0

/-! Frame push/pop event streams, used to state the stack-length invariant. -/

/-- An abstract frame event for one TID. -/
inductive FrameEv where
  | push (tid : Nat) (fid : Nat)
  | pop (tid : Nat) (count : Nat)
deriving DecidableEq

/-- Wire encoding of one frame event: its tag followed by its payload. -/
def encodeEv : FrameEv → List Item
  | .push t f => [Item.num TAG_FRAME_PUSH, Item.pushRec ⟨t, f⟩]
  | .pop t c => [Item.num TAG_FRAME_POP, Item.popRec ⟨t, c⟩]

/-- Wire encoding of a sequence of frame events. -/
def encodeEvs : List FrameEv → List Item
  | [] => []
  | e :: r => encodeEv e ++ encodeEvs r

/-- The decoder-state effect of one frame event (what the FRAME_PUSH and
FRAME_POP cases of the decode loop do to the per-TID stacks). -/
def applyEv (st : RecordReader) : FrameEv → RecordReader
  | .push t f =>
    let newStack := ((alookup st.d_stack_traces t).getD []) ++ [f]
    { st with d_stack_traces := aset st.d_stack_traces t newStack }
  | .pop t c =>
    let cur := (alookup st.d_stack_traces t).getD []
    let r := popN cur c
    { st with d_stack_traces := aset st.d_stack_traces t r.1, d_ub := st.d_ub || r.2 }

/-- The decoded stack of a TID (an unseen TID reads as empty). -/
def stackOf (st : RecordReader) (t : Nat) : List Nat :=
  (alookup st.d_stack_traces t).getD []

/-- Number of FRAME_PUSH events for a TID. -/
def pushCount (t : Nat) : List FrameEv → Nat
  | [] => 0
  | .push t' _ :: r => (if t' = t then 1 else 0) + pushCount t r
  | .pop _ _ :: r => pushCount t r

/-- Sum of FRAME_POP counts for a TID. -/
def popCount (t : Nat) : List FrameEv → Nat
  | [] => 0
  | .push _ _ :: r => popCount t r
  | .pop t' c :: r => (if t' = t then c else 0) + popCount t r

/-- The writer invariant for a TID: starting from a stack of depth `n`, no
FRAME_POP ever pops more entries than that TID has. -/
def balancedFor (t : Nat) : Nat → List FrameEv → Bool
  | _, [] => true
  | n, .push t' _ :: r => balancedFor t (if t' = t then n + 1 else n) r
  | n, .pop t' c :: r =>
    if t' = t then (if c ≤ n then balancedFor t (n - c) r else false)
    else balancedFor t n r

/-! Python layer (`_pensieve.pyx`): hybrid stack traces and FileReader. -/

/-- A native frame as rendered by `Py_GetNativeStackFrame`: (symbol, filename,
lineno). -/
structure NativeFrame where
  symbol : String
  filename : String
  lineno : Int
deriving DecidableEq

/-- Whether the character list `n` occurs at the start of `h`. -/
def startsSeq : List Char → List Char → Bool
  | [], _ => true
  | _ :: _, [] => false
  | a :: as, b :: bs => a = b && startsSeq as bs

/-- Whether the character list `n` occurs somewhere inside `h` (Python's
`in` operator on strings). -/
def containsSeq (n : List Char) : List Char → Bool
  | [] => n.isEmpty
  | h@(_ :: t) => startsSeq n h || containsSeq n t

/-- Whether `suffix` ends `s` (Python's `str.endswith`). -/
def endsWithSeq (s suffix : String) : Bool :=
  startsSeq suffix.data.reverse s.data.reverse

/-- `AllocationRecord._is_eval_frame`: `"_PyEval_EvalFrameDefault" in symbol`. -/
def is_eval_frame (symbol : String) : Bool :=
  containsSeq "_PyEval_EvalFrameDefault".data symbol.data

/-- `AllocationRecord._pure_python_stack_trace`: the interpreter stack trace
with frames from compiled glue (filename ending in `.pyx`) skipped. -/
def purePythonStackTrace (trace : List EmittedFrame) : List EmittedFrame :=
  trace.filter (fun f => !endsWithSeq f.filename ".pyx")

/-- One element of the hybrid trace: an interpreter frame substituted at an
eval-frame trampoline, or a native frame. -/
inductive HybridFrame where
  | py (f : EmittedFrame)
  | native (f : NativeFrame)
deriving DecidableEq

/-- The loop of `AllocationRecord.hybrid_stack_trace`: `n` is
`n_python_frames_left` (`none` models Python's `None`, which never compares
equal to 0). `next()` on an exhausted iterator inside the generator raises
(PEP 479 turns it into RuntimeError); that can only happen when the pure
interpreter stack was empty. -/
def hybridGo : Option Nat → List EmittedFrame → List NativeFrame →
    Except String (List HybridFrame)
  | _, _, [] => .ok []
  | some 0, _, _ => .ok []
  | n, ps, nf :: rest =>
    if is_eval_frame nf.symbol then
      match ps with
      | [] => .error "RuntimeError"
      | p :: ps' => (hybridGo (n.map (· - 1)) ps' rest).map (fun l => .py p :: l)
    else
      (hybridGo n ps rest).map (fun l => .native nf :: l)

/-- `AllocationRecord.hybrid_stack_trace`, as a function of the interpreter
stack trace and the native stack trace it consumes (both produced by reader
queries). -/
def hybrid_stack_trace (trace : List EmittedFrame) (native : List NativeFrame) :
    Except String (List HybridFrame) :=
  let python_stack := purePythonStackTrace trace
  hybridGo (if python_stack.isEmpty then none else some python_stack.length)
    python_stack native

/-- Number of eval-frame trampolines in a native trace. -/
def countEval (l : List NativeFrame) : Nat :=
  (l.filter (fun nf => is_eval_frame nf.symbol)).length

/-! FileReader (`_pensieve.pyx`): reader-liveness checks around generators. -/

/-- The state of the `FileReader`'s shared reader at a resumption point:
open, closed (`close()` was called), or discarded (`_reader` reset). -/
inductive RState where
  | opened
  | closed
  | discarded
deriving DecidableEq

/-- `FileReader._get_reader` raises ValueError iff the shared pointer is
NULL. -/
def getReaderFails : RState → Bool
  | .discarded => true
  | _ => false

/-- `FileReader._ensure_reader_is_open`: `_get_reader` (ValueError when
discarded) followed by the `isOpen` check (ValueError when closed). -/
def ensureFails : RState → Bool
  | .opened => false
  | _ => true

/-- The observable run of a Python generator: the values it yielded, and the
exception (if any) that ended it. -/
structure GenRun (α : Type) where
  yielded : List α
  raised : Option String
deriving DecidableEq

/-- `FileReader._yield_allocations`: yield each record, then re-check the
reader; `sched k` is the reader state when the generator is resumed after
its k-th yield. -/
def yieldAllocations {α : Type} (sched : Nat → RState) : List α → GenRun α
  | [] => ⟨[], none⟩
  | a :: rest =>
    if ensureFails (sched 0) then ⟨[a], some "ValueError"⟩
    else
      let r := yieldAllocations (fun n => sched (n + 1)) rest
      ⟨a :: r.yielded, r.raised⟩

/-- `FileReader.get_high_watermark_allocation_records`: a generator whose
body first runs `_ensure_reader_is_open` (raising ValueError before yielding
anything when the reader is closed or discarded), then materializes the
allocations and delegates to `_yield_allocations`. The snapshot computation
(`Py_GetSnapshotAllocationRecords`, outside the sources at hand) is
abstracted as the list argument. -/
def get_high_watermark_allocation_records {α : Type} (s0 : RState)
    (sched : Nat → RState) (allocs : List α) : GenRun α :=
  if ensureFails s0 then ⟨[], some "ValueError"⟩
  else yieldAllocations sched allocs

/-- `FileReader.get_leaked_allocation_records`: same liveness discipline as
the high-watermark query, over the last-index snapshot. -/
def get_leaked_allocation_records {α : Type} (s0 : RState)
    (sched : Nat → RState) (allocs : List α) : GenRun α :=
  if ensureFails s0 then ⟨[], some "ValueError"⟩
  else yieldAllocations sched allocs

/-! Concrete fixtures used by witnesses and counterexamples. -/

/-- A concrete header for building decoder states in witnesses. -/
def testHeader : HeaderRecord :=
  ⟨MAGIC, CURRENT_HEADER_VERSION, false, ⟨0, 0, 0, 0⟩, "python app.py", 42⟩

/-- A three-deep call chain `a → b → c` in the stack tree, with distinct
`parent_lineno` values, used to exhibit which frame's `parent_lineno` the
stack-trace walk reports. -/
def cexReader : RecordReader :=
  { initialReader testHeader with
    d_frame_map :=
      [(1, ⟨"a", "f.py", 10, 0⟩), (2, ⟨"b", "f.py", 20, 0⟩), (3, ⟨"c", "f.py", 30, 0⟩)],
    d_tree := ⟨[FrameTree.root, ⟨1, 0⟩, ⟨2, 1⟩, ⟨3, 2⟩]⟩ }

/-- The tags dispatched by the decode loop's switch; every other value falls
into the `default` case. -/
def knownTags : List Nat :=
  [TAG_ALLOCATION, TAG_FRAME_PUSH, TAG_FRAME_POP, TAG_FRAME_INDEX,
   TAG_NATIVE_TRACE_INDEX, TAG_MEMORY_MAP_START, TAG_SEGMENT_HEADER, TAG_THREAD_RECORD]

/-- The dispatched tags whose records carry a payload (all but
MEMORY_MAP_START), used to state truncation-in-payload behaviour. -/
def payloadTags : List Nat :=
  [TAG_ALLOCATION, TAG_FRAME_PUSH, TAG_FRAME_POP, TAG_FRAME_INDEX,
   TAG_NATIVE_TRACE_INDEX, TAG_SEGMENT_HEADER, TAG_THREAD_RECORD]

/-- A decoder state with one interned canonical frame on thread 7's stack,
used as a concrete input for the allocation-frame specialization. -/
def c2Reader : RecordReader :=
  { initialReader testHeader with
    d_frame_map := [(1, ⟨"f", "a.py", 10, 0⟩)],
    d_stack_traces := [(7, [1])] }

/-- A concrete balanced frame-event sequence, including a count-0 FRAME_POP
and a count-0 FRAME_POP for an unseen TID. -/
def c4Evs : List FrameEv :=
  [.push 7 1, .pop 7 0, .push 7 2, .pop 7 1, .pop 9 0]

/-- A concrete reader-state schedule: open at the first resumption, closed
from the second on. -/
def witnessSched : Nat → RState :=
  fun i => if i = 0 then RState.opened else RState.closed

/-! Theorems. -/

/-- C1: a stream with good magic but a header version different from the
current one makes the decoder constructor fail with the version-mismatch
format error, whatever records follow: `readHeader` runs inside the
constructor, so no record-parsing state is ever built. -/
theorem spec_c1 (v : Nat) (rest : List Item) (b : Bool)
    (hv : v ≠ CURRENT_HEADER_VERSION) :
    RecordReader.construct ⟨Item.bytes MAGIC :: Item.num v :: rest, b⟩ =
      .error (.iosFailure
        "The provided input file is incompatible with this version of pensieve.") := by
  simp [RecordReader.construct, readHeader, Source.readBytes, Source.readNum, hv,
    Except.map]

/-- Witness for C1 at version 2 (current is 1). -/
theorem spec_c1_witness :
    RecordReader.construct ⟨[Item.bytes MAGIC, Item.num 2], true⟩ =
      .error (.iosFailure
        "The provided input file is incompatible with this version of pensieve.") :=
  spec_c1 2 [] true (by decide)

/-- C5 (code evaluation): a FRAME_POP whose count exceeds the TID's stack
depth is NOT surfaced as a typed failure: the decode loop pops the empty
vector (undefined behaviour in C++, recorded by `d_ub`), continues, and the
stream decodes to a clean end-of-stream `false` with no exception and no log. -/
theorem spec_c5_code_eval :
    nextAllocationRecord (initialReader testHeader)
        ⟨[Item.num TAG_FRAME_POP, Item.popRec ⟨7, 1⟩], true⟩ =
      .ok ⟨none, { initialReader testHeader with d_stack_traces := [(7, [])], d_ub := true },
           ⟨[], true⟩, []⟩ := rfl

/-- C6 (counterexample): on an unknown tag the decode loop returns the same
`false` the caller gets at clean end-of-stream — no exception is thrown, so
no typed failure distinguishable from end-of-stream reaches the caller (only
the side-effect log differs). -/
theorem spec_c6_counterexample :
    isFormatError (nextAllocationRecord (initialReader testHeader)
        ⟨[Item.num 99], true⟩) = false ∧
    deliveredAllocation (nextAllocationRecord (initialReader testHeader)
        ⟨[Item.num 99], true⟩) =
      deliveredAllocation (nextAllocationRecord (initialReader testHeader)
        ⟨[], true⟩) := ⟨rfl, rfl⟩

/-- C6 (amended): an unknown tag terminates the decode loop: the call
returns `false` with the decoder state untouched, logging "Invalid record
type" iff the source is open; by return value this is identical to clean
end-of-stream, no typed failure being surfaced. -/
theorem spec_c6_amended (st : RecordReader) (rest : List Item) (b : Bool) (t : Nat)
    (ht : t ∉ knownTags) :
    nextAllocationRecord st ⟨Item.num t :: rest, b⟩ =
      .ok ⟨none, st, ⟨rest, b⟩, if b then ["Invalid record type"] else []⟩ := by
  simp only [knownTags, List.mem_cons, List.mem_singleton, not_or] at ht
  obtain ⟨h1, h2, h3, h4, h5, h6, h7, h8, -⟩ := ht
  simp [nextAllocationRecord, nextAllocationLoop, Source.readNum, addLog,
    h1, h2, h3, h4, h5, h6, h7, h8]

/-- Witness for C6's amended claim at tag 99 on an open source. -/
theorem spec_c6_amended_witness :
    nextAllocationRecord (initialReader testHeader) ⟨[Item.num 99], true⟩ =
      .ok ⟨none, initialReader testHeader, ⟨[], true⟩, ["Invalid record type"]⟩ :=
  spec_c6_amended (initialReader testHeader) [] true 99 (by decide)

/-- C7: end-of-stream exactly at a tag boundary returns `false` with no log;
a stream that ends inside a record payload (here: right after the tag of any
payload-carrying record) returns `false` with no exception, and logs an
error if and only if the source is still open. -/
theorem spec_c7 (st : RecordReader) (b : Bool) (t : Nat) (ht : t ∈ payloadTags) :
    nextAllocationRecord st ⟨[], b⟩ = .ok ⟨none, st, ⟨[], b⟩, []⟩ ∧
    deliveredAllocation (nextAllocationRecord st ⟨[Item.num t], b⟩) = none ∧
    isFormatError (nextAllocationRecord st ⟨[Item.num t], b⟩) = false ∧
    (resultLog (nextAllocationRecord st ⟨[Item.num t], b⟩)).isEmpty = !b := by
  refine ⟨by simp [nextAllocationRecord, nextAllocationLoop, Source.readNum], ?_⟩
  simp only [payloadTags, List.mem_cons, List.mem_singleton] at ht
  rcases ht with rfl | rfl | rfl | rfl | rfl | rfl | rfl | h
  all_goals first
  | (refine absurd h ?_; simp)
  | (refine ⟨?_, ?_, ?_⟩ <;>
      (cases b <;>
        simp [nextAllocationRecord, nextAllocationLoop, Source.readNum, addLog,
          parseAllocationRecord, Source.readAllocRec, parseFramePush, Source.readPushRec,
          parseFramePop, Source.readPopRec, parseFrameIndex, parseNativeFrameIndex,
          Source.readNativeRec, parseSegmentHeader, Source.readStr, parseThreadRecord,
          TAG_ALLOCATION, TAG_FRAME_PUSH, TAG_FRAME_POP, TAG_FRAME_INDEX,
          TAG_NATIVE_TRACE_INDEX, TAG_MEMORY_MAP_START, TAG_SEGMENT_HEADER,
          TAG_THREAD_RECORD, deliveredAllocation, isFormatError, resultLog]))

/-- Witness for C7 at the ALLOCATION tag on an open source. -/
theorem spec_c7_witness :
    nextAllocationRecord (initialReader testHeader) ⟨[], true⟩ =
      .ok ⟨none, initialReader testHeader, ⟨[], true⟩, []⟩ ∧
    deliveredAllocation (nextAllocationRecord (initialReader testHeader)
      ⟨[Item.num TAG_ALLOCATION], true⟩) = none ∧
    isFormatError (nextAllocationRecord (initialReader testHeader)
      ⟨[Item.num TAG_ALLOCATION], true⟩) = false ∧
    (resultLog (nextAllocationRecord (initialReader testHeader)
      ⟨[Item.num TAG_ALLOCATION], true⟩)).isEmpty = !true :=
  spec_c7 (initialReader testHeader) true TAG_ALLOCATION (by decide)

/-- C3: an ALLOCATION record for a TID whose decoded stack is absent or
empty is still delivered (the call returns true), with `frame_index` 0, the
root sentinel, and the current resolver generation. -/
theorem spec_c3 (st : RecordReader) (rec : AllocationRecord) (rest : List Item) (b : Bool)
    (hstk : alookup st.d_stack_traces rec.tid = none ∨
            alookup st.d_stack_traces rec.tid = some []) :
    deliveredAllocation (nextAllocationRecord st
        ⟨Item.num TAG_ALLOCATION :: Item.allocRec rec :: rest, b⟩) =
      some ⟨rec, 0, st.d_symbol_resolver.currentSegmentGeneration⟩ := by
  rcases hstk with hstk | hstk <;>
    simp [nextAllocationRecord, nextAllocationLoop, Source.readNum,
      parseAllocationRecord, Source.readAllocRec, getAllocationFrameIndex, hstk,
      correctAllocationFrame, FrameTree.getTraceIndex, deliveredAllocation]

/-- Witness for C3: a fresh decoder (no stack for TID 7) delivers the
allocation with frame index 0. -/
theorem spec_c3_witness :
    deliveredAllocation (nextAllocationRecord (initialReader testHeader)
        ⟨[Item.num TAG_ALLOCATION, Item.allocRec ⟨7, 256, 64, 1, 12, 0⟩], true⟩) =
      some ⟨⟨7, 256, 64, 1, 12, 0⟩, 0, 0⟩ :=
  spec_c3 (initialReader testHeader) ⟨7, 256, 64, 1, 12, 0⟩ [] true (Or.inl rfl)

/-! Helper lemmas about the association lists and the pop loop. -/

theorem alookup_aset_self {β : Type} (m : List (Nat × β)) (k : Nat) (v : β) :
    alookup (aset m k v) k = some v := by
  induction m with
  | nil => simp [aset, alookup]
  | cons p r ih =>
    by_cases h : p.1 = k <;> simp [aset, alookup, h, ih]

theorem alookup_aset_ne {β : Type} (m : List (Nat × β)) (k k' : Nat) (v : β)
    (h : k' ≠ k) : alookup (aset m k v) k' = alookup m k' := by
  have h' : ¬ k = k' := Ne.symm h
  induction m with
  | nil => simp [aset, alookup, h']
  | cons p r ih =>
    by_cases hp : p.1 = k
    · simp [aset, alookup, hp, h']
    · by_cases hp' : p.1 = k' <;> simp [aset, alookup, hp, hp', ih, h]

theorem popN_of_le (c : Nat) : ∀ l : List Nat, c ≤ l.length →
    (popN l c).1.length = l.length - c ∧ (popN l c).2 = false := by
  induction c with
  | zero => intro l _; simp [popN]
  | succ c ih =>
    intro l hl
    match l with
    | [] => simp at hl
    | a :: l' =>
      have hdl : (a :: l').dropLast.length = l'.length := by
        simp [List.length_dropLast]
      have hc : c ≤ (a :: l').dropLast.length := by
        simp only [List.length_cons] at hl; omega
      have hih := ih (a :: l').dropLast hc
      simp only [popN]
      refine ⟨?_, hih.2⟩
      rw [hih.1, hdl]
      simp only [List.length_cons]
      omega

theorem stackOf_applyEv_push (st : RecordReader) (t t' f : Nat) :
    stackOf (applyEv st (.push t' f)) t =
      if t' = t then stackOf st t ++ [f] else stackOf st t := by
  by_cases h : t' = t
  · subst h; simp [stackOf, applyEv, alookup_aset_self]
  · simp [stackOf, applyEv, alookup_aset_ne _ _ _ _ (Ne.symm h), h]

theorem stackOf_applyEv_pop (st : RecordReader) (t t' c : Nat) :
    stackOf (applyEv st (.pop t' c)) t =
      if t' = t then (popN (stackOf st t) c).1 else stackOf st t := by
  by_cases h : t' = t
  · subst h; simp [stackOf, applyEv, alookup_aset_self]
  · simp [stackOf, applyEv, alookup_aset_ne _ _ _ _ (Ne.symm h), h]

/-- The decode loop over a pure FRAME_PUSH/FRAME_POP stream runs to clean
end-of-stream and folds the per-event state update over the events. -/
theorem loop_encodeEvs : ∀ (evs : List FrameEv) (fuel : Nat) (st : RecordReader)
    (b : Bool) (log : List String), (encodeEvs evs).length < fuel →
    nextAllocationLoop fuel st ⟨encodeEvs evs, b⟩ log =
      .ok ⟨none, evs.foldl applyEv st, ⟨[], b⟩, log⟩ := by
  intro evs
  induction evs with
  | nil =>
    intro fuel st b log hf
    match fuel with
    | 0 => simp [encodeEvs] at hf
    | fuel + 1 => simp [encodeEvs, nextAllocationLoop, Source.readNum]
  | cons e r ih =>
    intro fuel st b log hf
    match fuel with
    | 0 => simp at hf
    | fuel + 1 =>
      have hr : (encodeEvs r).length < fuel := by
        cases e <;> (simp [encodeEvs, encodeEv] at hf ⊢; omega)
      cases e with
      | push t f =>
        have : nextAllocationLoop (fuel + 1) st ⟨encodeEvs (.push t f :: r), b⟩ log =
            nextAllocationLoop fuel (applyEv st (.push t f)) ⟨encodeEvs r, b⟩ log := by
          simp [encodeEvs, encodeEv, nextAllocationLoop, Source.readNum,
            TAG_FRAME_PUSH, TAG_ALLOCATION, parseFramePush, Source.readPushRec, applyEv]
        rw [this, ih fuel _ b log hr, List.foldl_cons]
      | pop t c =>
        have : nextAllocationLoop (fuel + 1) st ⟨encodeEvs (.pop t c :: r), b⟩ log =
            nextAllocationLoop fuel (applyEv st (.pop t c)) ⟨encodeEvs r, b⟩ log := by
          simp [encodeEvs, encodeEv, nextAllocationLoop, Source.readNum,
            TAG_FRAME_POP, TAG_ALLOCATION, TAG_FRAME_PUSH, parseFramePop,
            Source.readPopRec, applyEv]
        rw [this, ih fuel _ b log hr, List.foldl_cons]

/-- Folding a balanced event sequence changes the TID's stack length by
pushes minus pops. -/
theorem foldl_applyEv_len (t : Nat) : ∀ (evs : List FrameEv) (st : RecordReader),
    balancedFor t (stackOf st t).length evs = true →
    (stackOf (evs.foldl applyEv st) t).length =
      (stackOf st t).length + pushCount t evs - popCount t evs ∧
    popCount t evs ≤ (stackOf st t).length + pushCount t evs := by
  intro evs
  induction evs with
  | nil => intro st _; simp [pushCount, popCount]
  | cons e r ih =>
    intro st hbal
    cases e with
    | push t' f =>
      have hlen : (stackOf (applyEv st (.push t' f)) t).length =
          if t' = t then (stackOf st t).length + 1 else (stackOf st t).length := by
        rw [stackOf_applyEv_push]
        by_cases h : t' = t <;> simp [h]
      have hbal' : balancedFor t (stackOf (applyEv st (.push t' f)) t).length r = true := by
        simp only [balancedFor] at hbal
        rw [hlen]; exact hbal
      obtain ⟨ih1, ih2⟩ := ih (applyEv st (.push t' f)) hbal'
      rw [List.foldl_cons]
      rw [hlen] at ih1 ih2
      by_cases h : t' = t <;> simp [h, pushCount, popCount] at ih1 ih2 ⊢ <;> omega
    | pop t' c =>
      by_cases h : t' = t
      · subst h
        by_cases hc : c ≤ (stackOf st t').length
        · simp only [balancedFor, if_pos rfl, if_pos hc] at hbal
          have hpop := popN_of_le c (stackOf st t') hc
          have hlen : (stackOf (applyEv st (.pop t' c)) t').length =
              (stackOf st t').length - c := by
            rw [stackOf_applyEv_pop]; simp [hpop.1]
          have hbal' : balancedFor t' (stackOf (applyEv st (.pop t' c)) t').length r
              = true := by
            rw [hlen]; exact hbal
          obtain ⟨ih1, ih2⟩ := ih (applyEv st (.pop t' c)) hbal'
          rw [List.foldl_cons]
          rw [hlen] at ih1 ih2
          simp [pushCount, popCount] at ih1 ih2 ⊢; omega
        · simp only [balancedFor, if_pos rfl, if_neg hc] at hbal
          exact absurd hbal (by simp)
      · have hlen : stackOf (applyEv st (.pop t' c)) t = stackOf st t := by
          rw [stackOf_applyEv_pop]; simp [h]
        simp only [balancedFor, if_neg h] at hbal
        have hbal' : balancedFor t (stackOf (applyEv st (.pop t' c)) t).length r = true := by
          rw [hlen]; exact hbal
        obtain ⟨ih1, ih2⟩ := ih (applyEv st (.pop t' c)) hbal'
        rw [List.foldl_cons]
        rw [hlen] at ih1 ih2
        simp [h, pushCount, popCount] at ih1 ih2 ⊢; omega

/-- C4: decoding any frame-event stream satisfying the writer invariant (no
FRAME_POP for a TID ever exceeds that TID's depth — which forces the pop
total M ≤ the push total N) runs to clean end-of-stream with no error and no
log, and leaves the TID's decoded stack at length N − M. A FRAME_POP with
count 0 is covered: it is a no-op, not an error. -/
theorem spec_c4 (evs : List FrameEv) (t : Nat) (b : Bool) (h : HeaderRecord)
    (hbal : balancedFor t 0 evs = true) :
    nextAllocationRecord (initialReader h) ⟨encodeEvs evs, b⟩ =
      .ok ⟨none, evs.foldl applyEv (initialReader h), ⟨[], b⟩, []⟩ ∧
    (stackOf (evs.foldl applyEv (initialReader h)) t).length =
      pushCount t evs - popCount t evs ∧
    popCount t evs ≤ pushCount t evs := by
  have hstart : (stackOf (initialReader h) t).length = 0 := by
    simp [stackOf, initialReader, alookup]
  have hbal' : balancedFor t (stackOf (initialReader h) t).length evs = true := by
    rw [hstart]; exact hbal
  have hfold := foldl_applyEv_len t evs (initialReader h) hbal'
  rw [hstart] at hfold
  exact ⟨loop_encodeEvs evs ((encodeEvs evs).length + 1) (initialReader h) b []
      (Nat.lt_succ_self _),
    by simpa using hfold.1, by simpa using hfold.2⟩

/-- Witness for C4: a concrete balanced sequence with a count-0 pop (and a
count-0 pop for an unseen TID), ending at depth 1 for TID 7. -/
theorem spec_c4_witness :
    nextAllocationRecord (initialReader testHeader) ⟨encodeEvs c4Evs, true⟩ =
      .ok ⟨none, c4Evs.foldl applyEv (initialReader testHeader), ⟨[], true⟩, []⟩ ∧
    (stackOf (c4Evs.foldl applyEv (initialReader testHeader)) 7).length =
      pushCount 7 c4Evs - popCount 7 c4Evs ∧
    popCount 7 c4Evs ≤ pushCount 7 c4Evs :=
  spec_c4 c4Evs 7 true testHeader (by decide)

/-! Helper lemmas about the allocation-frame interner. -/

theorem findFrame_eq_none (l : List Frame) (f : Frame) :
    findFrame l f = none ↔ f ∉ l := by
  induction l with
  | nil => simp [findFrame]
  | cons g gs ih =>
    by_cases h : g = f
    · subst h; simp [findFrame]
    · simp [findFrame, h, Option.map_eq_none', ih, Ne.symm h]

theorem findFrame_append_of_none (l : List Frame) (f : Frame)
    (h : findFrame l f = none) : findFrame (l ++ [f]) f = some l.length := by
  induction l with
  | nil => simp [findFrame]
  | cons g gs ih =>
    simp only [findFrame] at h
    by_cases hg : g = f
    · simp [hg] at h
    · simp only [Option.map_eq_none', if_neg hg] at h
      simp [findFrame, hg, ih h]

/-- `correctAllocationFrame` on a non-empty stack whose top frame is interned:
the clone is interned, inserted into the frame map only when new, and the
stack's top is replaced with the clone's id. -/
theorem correctAllocationFrame_nonempty (st : RecordReader) (stack : List Nat)
    (lineno : Int) (h : stack ≠ []) (pf : Frame)
    (hpf : alookup st.d_frame_map (stack.getLast h) = some pf) :
    correctAllocationFrame st stack lineno =
      .ok (stack.dropLast ++ [(st.d_allocation_frames.getIndex (allocationFrameOf pf lineno)).1],
           { st with
             d_frame_map :=
               if (st.d_allocation_frames.getIndex (allocationFrameOf pf lineno)).2.1 then
                 emplaceFrame st.d_frame_map
                   (st.d_allocation_frames.getIndex (allocationFrameOf pf lineno)).1
                   (allocationFrameOf pf lineno)
               else st.d_frame_map,
             d_allocation_frames :=
               (st.d_allocation_frames.getIndex (allocationFrameOf pf lineno)).2.2 }) := by
  unfold correctAllocationFrame
  rw [dif_neg h, hpf]

/-- C2: for an ALLOCATION record with non-sentinel `py_lineno` on a TID with
a non-empty stack whose top frame is interned, the result of
`getAllocationFrameIndex` is the stack-tree index of the path whose top
FrameId has been replaced by the id of the clone of the top frame with
`lineno = py_lineno`; the clone is interned injectively (a duplicate-free
interner stays duplicate-free and the clone's id is the offset plus its
unique position) and inserted into the frame map only when new. -/
theorem spec_c2 (st : RecordReader) (rec : AllocationRecord) (stk : List Nat)
    (pf : Frame)
    (hstk : alookup st.d_stack_traces rec.tid = some stk)
    (hne : stk ≠ [])
    (hpf : alookup st.d_frame_map (stk.getLast hne) = some pf)
    (_hlin : rec.py_lineno ≠ 0)
    (hnd : st.d_allocation_frames.frames.Nodup) :
    let clone := allocationFrameOf pf rec.py_lineno
    let r := st.d_allocation_frames.getIndex clone
    let corrected := stk.dropLast ++ [r.1]
    let ti := st.d_tree.getTraceIndex corrected
    getAllocationFrameIndex st rec =
      .ok (ti.1, { st with
        d_frame_map := if r.2.1 then emplaceFrame st.d_frame_map r.1 clone
                       else st.d_frame_map,
        d_allocation_frames := r.2.2,
        d_tree := ti.2,
        d_stack_traces := aset st.d_stack_traces rec.tid corrected }) ∧
    r.2.2.frames.Nodup ∧
    findFrame r.2.2.frames clone = some (r.1 - ALLOCATION_FRAME_OFFSET) := by
  refine ⟨?_, ?_, ?_⟩
  · simp only [getAllocationFrameIndex, hstk,
      correctAllocationFrame_nonempty st stk rec.py_lineno hne pf hpf]
  · show ((st.d_allocation_frames.getIndex (allocationFrameOf pf rec.py_lineno)).2.2).frames.Nodup
    unfold AllocationFrames.getIndex
    cases hff : findFrame st.d_allocation_frames.frames (allocationFrameOf pf rec.py_lineno) with
    | some i => exact hnd
    | none =>
      have hnm : allocationFrameOf pf rec.py_lineno ∉ st.d_allocation_frames.frames :=
        (findFrame_eq_none _ _).1 hff
      refine List.nodup_append.2 ⟨hnd, List.nodup_singleton _, ?_⟩
      intro x hx hxf
      rw [List.mem_singleton] at hxf
      subst hxf
      exact hnm hx
  · show findFrame ((st.d_allocation_frames.getIndex (allocationFrameOf pf rec.py_lineno)).2.2).frames
        (allocationFrameOf pf rec.py_lineno) =
      some ((st.d_allocation_frames.getIndex (allocationFrameOf pf rec.py_lineno)).1
        - ALLOCATION_FRAME_OFFSET)
    unfold AllocationFrames.getIndex
    cases hff : findFrame st.d_allocation_frames.frames (allocationFrameOf pf rec.py_lineno) with
    | some i => simp [hff, Nat.add_sub_cancel_left]
    | none =>
      simp [findFrame_append_of_none _ _ hff]

/-- Witness for C2: one canonical frame `f` at line-of-call 10 on TID 7's
stack; the allocation at line 12 interns the clone, extends the frame map,
and indexes the corrected one-frame path at tree node 1. -/
theorem spec_c2_witness :
    getAllocationFrameIndex c2Reader ⟨7, 256, 64, 1, 12, 0⟩ =
      .ok (1, { c2Reader with
        d_frame_map := [(1, ⟨"f", "a.py", 10, 0⟩), (1000000000, ⟨"f", "a.py", 10, 12⟩)],
        d_allocation_frames := ⟨[⟨"f", "a.py", 10, 12⟩]⟩,
        d_tree := ⟨[FrameTree.root, ⟨1000000000, 0⟩]⟩,
        d_stack_traces := [(7, [1000000000])] }) ∧
    (AllocationFrames.frames ⟨[⟨"f", "a.py", 10, 12⟩]⟩).Nodup ∧
    findFrame [⟨"f", "a.py", 10, 12⟩] ⟨"f", "a.py", 10, 12⟩ = some 0 :=
  spec_c2 c2Reader ⟨7, 256, 64, 1, 12, 0⟩ [1] ⟨"f", "a.py", 10, 0⟩ rfl
    (by decide) rfl (by decide) (by decide)

/-! The stack-trace walk: what lineno each emitted frame carries. -/

/-- The walk emits exactly the frames along the path, each paired with the
carried lineno: the first gets the seed, every later one gets the
`parent_lineno` of the frame emitted just before it. -/
theorem pyGetStackFrameGo_eq (st : RecordReader) : ∀ (r i : Nat) (l : Int),
    pyGetStackFrameGo st r i l =
      (walkFrames st r i).map
        (fun fs => List.zipWith Frame.toEmitted fs (l :: fs.map Frame.parent_lineno)) := by
  intro r
  induction r with
  | zero => intro i l; simp [pyGetStackFrameGo, walkFrames, Except.map]
  | succ r ih =>
    intro i l
    cases i with
    | zero => simp [pyGetStackFrameGo, walkFrames, Except.map]
    | succ i =>
      simp only [pyGetStackFrameGo, walkFrames]
      cases halt : alookup st.d_frame_map ((st.d_tree.nextNode (i + 1)).frame_id) with
      | none => simp [Except.map]
      | some frame =>
        simp only
        rw [ih]
        cases hw : walkFrames st r ((st.d_tree.nextNode (i + 1)).parent_index) with
        | error e => simp [Except.map]
        | ok fs => simp [Except.map, List.zipWith]

/-- Lengths: the walk never returns more frames than its fuel. -/
theorem walkFrames_length (st : RecordReader) : ∀ (r i : Nat) (fs : List Frame),
    walkFrames st r i = .ok fs → fs.length ≤ r := by
  intro r
  induction r with
  | zero =>
    intro i fs h
    have hfs : fs = [] := by simpa [walkFrames, eq_comm] using h
    simp [hfs]
  | succ r ih =>
    intro i fs h
    cases i with
    | zero =>
      have hfs : fs = [] := by simpa [walkFrames, eq_comm] using h
      simp [hfs]
    | succ i =>
      simp only [walkFrames] at h
      cases halt : alookup st.d_frame_map ((st.d_tree.nextNode (i + 1)).frame_id) with
      | none => rw [halt] at h; simp [Except.map] at h
      | some frame =>
        rw [halt] at h
        cases hw : walkFrames st r ((st.d_tree.nextNode (i + 1)).parent_index) with
        | error e => rw [hw] at h; simp [Except.map] at h
        | ok fs' =>
          rw [hw] at h
          simp only [Except.map, Except.ok.injEq] at h
          have := ih _ fs' hw
          rw [← h]
          simp; omega

/-- C8 (amended): the stack-trace walk from `index` emits at most
`max_depth` frames; the topmost emitted frame carries the sentinel lineno
-1, and every other emitted frame carries the `parent_lineno` stored in the
frame emitted just before it — its child in the stack tree, i.e. the frame
it called: each frame reports the line in itself at which its callee was
invoked. -/
theorem spec_c8_amended (st : RecordReader) (index max_stacks : Nat) :
    Py_GetStackFrame st index max_stacks =
      (walkFrames st max_stacks index).map
        (fun fs => List.zipWith Frame.toEmitted fs ((-1 : Int) :: fs.map Frame.parent_lineno)) ∧
    traceLen (Py_GetStackFrame st index max_stacks) ≤ max_stacks := by
  have heq := pyGetStackFrameGo_eq st max_stacks index (-1)
  refine ⟨heq, ?_⟩
  unfold Py_GetStackFrame
  rw [heq]
  cases hw : walkFrames st max_stacks index with
  | error e => simp [traceLen, Except.map]
  | ok fs =>
    have := walkFrames_length st max_stacks index fs hw
    simp [traceLen, Except.map]
    omega

/-- C8 (counterexample): in the chain `a → b → c` (tree nodes 1, 2, 3;
`parent_lineno` 10, 20, 30 respectively), the walk from node 3 reports frame
`b` with lineno 30 — the `parent_lineno` of its callee `c` — whereas the
claim's "parent frame" (`a`, the tree parent of `b`'s node) stores 10, and
`b`'s own `parent_lineno` ("the line in its caller at which it was called")
is 20. -/
theorem spec_c8_counterexample :
    Py_GetStackFrame cexReader 3 10 =
      .ok [⟨"c", "f.py", -1⟩, ⟨"b", "f.py", 30⟩, ⟨"a", "f.py", 20⟩] ∧
    cexReader.d_tree.nextNode 2 = ⟨2, 1⟩ ∧
    alookup cexReader.d_frame_map 1 = some ⟨"a", "f.py", 10, 0⟩ ∧
    alookup cexReader.d_frame_map 2 = some ⟨"b", "f.py", 20, 0⟩ ∧
    ((30 : Int) == 10) = false ∧ ((30 : Int) == 20) = false :=
  ⟨rfl, rfl, rfl, rfl, rfl, rfl⟩

/-! Hybrid stack trace. -/

/-- Once the counter of interpreter frames left reaches the number consumed
by the eval-frame trampolines of a prefix, the loop never looks at the rest
of the native trace. -/
theorem hybridGo_drop : ∀ (pre : List NativeFrame) (ps : List EmittedFrame)
    (post : List NativeFrame), countEval pre = ps.length →
    hybridGo (some ps.length) ps (pre ++ post) = hybridGo (some ps.length) ps pre := by
  intro pre
  induction pre with
  | nil =>
    intro ps post h
    simp [countEval] at h
    rw [← h]
    cases post <;> simp [hybridGo]
  | cons nf pre' ih =>
    intro ps post h
    by_cases he : is_eval_frame nf.symbol
    · have hc : countEval pre' + 1 = ps.length := by
        simp [countEval, he] at h ⊢; omega
      match ps with
      | [] => simp at hc
      | p :: ps' =>
        have hc' : countEval pre' = ps'.length := by simp at hc; omega
        simp only [List.cons_append, hybridGo, he, if_pos]
        rw [show (some (p :: ps').length).map (· - 1) = some ps'.length by simp]
        simp only [List.append_eq]
        rw [ih ps' post hc']
    · have hc : countEval pre' = ps.length := by
        simpa [countEval, he] using h
      match ps with
      | [] => simp [hybridGo]
      | p :: ps' =>
        simp only [List.cons_append, hybridGo, he, Bool.false_eq_true, if_false,
          List.length_cons]
        simp only [List.append_eq]
        have hih := ih (p :: ps') post hc
        simp only [List.length_cons] at hih
        rw [hih]

/-- C9: when the pure interpreter stack (frames whose filename does not end
in `.pyx`) is non-empty, the hybrid trace emits nothing beyond the prefix of
the native trace whose eval-frame trampolines consume all interpreter
frames: native frames after the last consumed trampoline are dropped. -/
theorem spec_c9 (trace : List EmittedFrame) (pre post : List NativeFrame)
    (hne : purePythonStackTrace trace ≠ [])
    (hcnt : countEval pre = (purePythonStackTrace trace).length) :
    hybrid_stack_trace trace (pre ++ post) = hybrid_stack_trace trace pre := by
  unfold hybrid_stack_trace
  have hie : (purePythonStackTrace trace).isEmpty = false := by
    cases hpp : purePythonStackTrace trace with
    | nil => exact absurd hpp hne
    | cons a l => simp
  simp only [hie, Bool.false_eq_true, if_false]
  exact hybridGo_drop pre (purePythonStackTrace trace) post hcnt

/-- Witness for C9: one interpreter frame, one trampoline in the prefix; the
trailing native frame is dropped. -/
theorem spec_c9_witness :
    hybrid_stack_trace [⟨"f", "a.py", 12⟩]
        ([⟨"_PyEval_EvalFrameDefault", "ceval.c", 0⟩] ++ [⟨"native_fn", "x.c", 7⟩]) =
      hybrid_stack_trace [⟨"f", "a.py", 12⟩] [⟨"_PyEval_EvalFrameDefault", "ceval.c", 0⟩] :=
  spec_c9 [⟨"f", "a.py", 12⟩] [⟨"_PyEval_EvalFrameDefault", "ceval.c", 0⟩]
    [⟨"native_fn", "x.c", 7⟩] (by decide) (by decide)

/-! FileReader liveness checks. -/

/-- A generator iteration that loses its reader at resumption `k` yields
exactly `k + 1` records, then raises ValueError. -/
theorem yieldAllocations_closed {α : Type} : ∀ (k : Nat) (sched : Nat → RState)
    (allocs : List α),
    (∀ i, i < k → ensureFails (sched i) = false) →
    ensureFails (sched k) = true →
    k + 1 ≤ allocs.length →
    yieldAllocations sched allocs = ⟨allocs.take (k + 1), some "ValueError"⟩ := by
  intro k
  induction k with
  | zero =>
    intro sched allocs _ hk hlen
    match allocs with
    | [] => simp at hlen
    | a :: rest => simp [yieldAllocations, hk]
  | succ k ih =>
    intro sched allocs hopen hk hlen
    match allocs with
    | [] => simp at hlen
    | a :: rest =>
      have h0 : ensureFails (sched 0) = false := hopen 0 (Nat.succ_pos k)
      have hrest := ih (fun n => sched (n + 1)) rest
        (fun i hi => hopen (i + 1) (by omega)) hk (by simp at hlen; omega)
      simp [yieldAllocations, h0, hrest]

/-- C10: with the reader closed or discarded, both the high-watermark and the
leaked-records generators raise ValueError before yielding anything; and an
iteration whose reader disappears at resumption `k` (the reader being live at
all earlier resumptions) yields exactly the next record — `k + 1` in all —
before raising ValueError. -/
theorem spec_c10 {α : Type} (s0 : RState) (sched : Nat → RState)
    (allocs allocs2 : List α) (k : Nat)
    (hs0 : ensureFails s0 = true)
    (hopen : ∀ i, i < k → ensureFails (sched i) = false)
    (hclosed : ensureFails (sched k) = true)
    (hlen : k + 1 ≤ allocs2.length) :
    get_high_watermark_allocation_records s0 sched allocs = ⟨[], some "ValueError"⟩ ∧
    get_leaked_allocation_records s0 sched allocs = ⟨[], some "ValueError"⟩ ∧
    yieldAllocations sched allocs2 = ⟨allocs2.take (k + 1), some "ValueError"⟩ :=
  ⟨by simp [get_high_watermark_allocation_records, hs0],
   by simp [get_leaked_allocation_records, hs0],
   yieldAllocations_closed k sched allocs2 hopen hclosed hlen⟩

/-- Witness for C10: a closed reader for the two query generators, and a
schedule that loses the reader at the second resumption, cutting the
iteration to two yielded records followed by ValueError. -/
theorem spec_c10_witness :
    get_high_watermark_allocation_records RState.closed witnessSched [1, 2, 3] =
      ⟨[], some "ValueError"⟩ ∧
    get_leaked_allocation_records RState.closed witnessSched [1, 2, 3] =
      ⟨[], some "ValueError"⟩ ∧
    yieldAllocations witnessSched [10, 20, 30] = ⟨[10, 20], some "ValueError"⟩ :=
  spec_c10 RState.closed witnessSched [1, 2, 3] [10, 20, 30] 1 (by decide)
    (by decide) (by decide) (by decide)

end Pensieve
